import Mathlib

/-!
Shallow embedding of the proteus real-time webcam pipeline (Rust) in Lean 4,
together with proofs settling the specification claims about it.

Conventions of the embedding:
* machine integers (`u32`, `usize`) are modelled as `Nat`; none of the modelled
  arithmetic can overflow for realistic frame dimensions, so no wrap-around is added;
* `f32` timestamps are modelled as `ℚ` (only ordering and subtraction are used);
* byte buffers (`Vec<u8>`) are `List UInt8`;
* calls into external libraries (the `ezk_image` pixel-format converter, the
  `url` crate, the `yt-dlp`/`streamlink` subprocesses, the GPU driver) are taken
  as function parameters or modelled data, as noted on each definition.
-/

namespace Proteus

/-- Pixel formats of `src/frame.rs` (`enum PixelFormat`). -/
inductive PixelFormat
  | Rgb
  | Rgba
  | Yuyv
  | Uyvy
  | Nv12
deriving DecidableEq, Repr

/-- `PixelFormat::bytes_per_pixel` (src/frame.rs lines 23-31).
For NV12 it returns 1: the Y component only, per the source comment. -/
def PixelFormat.bytes_per_pixel : PixelFormat → Nat
  | .Rgb => 3
  | .Rgba => 4
  | .Yuyv => 2
  | .Uyvy => 2
  | .Nv12 => 1

/-- `struct VideoFrame` (src/frame.rs lines 36-47). -/
structure VideoFrame where
  width : Nat
  height : Nat
  format : PixelFormat
  timestamp_us : Option Nat
  data : List UInt8
deriving DecidableEq, Repr

/-- `VideoFrame::new` (src/frame.rs lines 51-60): zero-filled buffer of
`width * height * bytes_per_pixel` bytes. -/
def VideoFrame.new (width height : Nat) (format : PixelFormat) : VideoFrame :=
  { width := width
    height := height
    format := format
    timestamp_us := none
    data := List.replicate (width * height * format.bytes_per_pixel) 0 }

/-- `VideoFrame::from_data` (src/frame.rs lines 63-71). -/
def VideoFrame.from_data (width height : Nat) (format : PixelFormat) (data : List UInt8) :
    VideoFrame :=
  { width := width, height := height, format := format, timestamp_us := none, data := data }

/-- The guarded pairwise byte-swap loops of src/frame.rs (UYVY <-> YUYV reordering at
lines 193-200, 308-315, 354-359 and 522-527): a fresh zero buffer of length `n` receives,
for each even index `i` with `i + 1 < data.len()`, `out[i] = data[i+1]` and
`out[i+1] = data[i]`; positions the guard skips keep their zero initialisation. -/
def swapInto (n : Nat) (data : List UInt8) : List UInt8 :=
  (List.range n).map fun j =>
    if j % 2 = 0 then (if j + 1 < data.length then data.getD (j + 1) 0 else 0)
    else (if j < data.length then data.getD (j - 1) 0 else 0)

/-- Writing library output into a preallocated buffer of length `n`
(the `vec![0u8; n]` destination buffers handed to `ezk_image::convert`):
the buffer keeps its length, positions the content does not cover stay zero. -/
def fillBuffer (n : Nat) (content : List UInt8) : List UInt8 :=
  (List.range n).map fun i => content.getD i 0

/-- The external `ezk_image::convert` routine, abstracted: source format, destination
format, width, height and source bytes determine the produced destination bytes.
The surrounding code fixes the destination buffer size, so the byte values produced
here never influence any length or dimension proved below. -/
abbrev EzkConvert := PixelFormat → PixelFormat → Nat → Nat → List UInt8 → List UInt8

/-- `VideoFrame::to_rgba` (src/frame.rs lines 119-222): clone when already RGBA;
explicit alpha-255 expansion loop for RGB; `ezk_image` conversion into a
`4 * w * h` buffer for YUYV/NV12; UYVY is byte-swapped to YUYV first. -/
def VideoFrame.to_rgba (ezk : EzkConvert) (f : VideoFrame) : VideoFrame :=
  if f.format = .Rgba then f
  else
    let w := f.width
    let h := f.height
    let rgba_data : List UInt8 :=
      match f.format with
      | .Rgb =>
          (List.range (w * h)).flatMap fun i =>
            [f.data.getD (i * 3) 0, f.data.getD (i * 3 + 1) 0, f.data.getD (i * 3 + 2) 0, 255]
      | .Yuyv => fillBuffer (w * h * 4) (ezk .Yuyv .Rgba w h f.data)
      | .Nv12 => fillBuffer (w * h * 4) (ezk .Nv12 .Rgba w h f.data)
      | .Uyvy => fillBuffer (w * h * 4) (ezk .Yuyv .Rgba w h (swapInto f.data.length f.data))
      | .Rgba => f.data
    { f with format := .Rgba, data := rgba_data }

/-- `VideoFrame::to_nv12` (src/frame.rs lines 225-337): clone when already NV12;
otherwise the destination buffer is `y_size + uv_size` bytes with
`y_size = w * h`, `uv_stride = w + w % 2`, `uv_height = (h + 1) / 2`,
`uv_size = uv_stride * uv_height`; UYVY is byte-swapped to YUYV first. -/
def VideoFrame.to_nv12 (ezk : EzkConvert) (f : VideoFrame) : VideoFrame :=
  if f.format = .Nv12 then f
  else
    let w := f.width
    let h := f.height
    let y_size := w * h
    let uv_stride := w + w % 2
    let uv_height := (h + 1) / 2
    let uv_size := uv_stride * uv_height
    let nv12_data : List UInt8 :=
      match f.format with
      | .Rgba => fillBuffer (y_size + uv_size) (ezk .Rgba .Nv12 w h f.data)
      | .Rgb => fillBuffer (y_size + uv_size) (ezk .Rgb .Nv12 w h f.data)
      | .Yuyv => fillBuffer (y_size + uv_size) (ezk .Yuyv .Nv12 w h f.data)
      | .Uyvy => fillBuffer (y_size + uv_size) (ezk .Yuyv .Nv12 w h (swapInto f.data.length f.data))
      | .Nv12 => f.data
    { f with format := .Nv12, data := nv12_data }

/-- `VideoFrame::to_yuyv` (src/frame.rs lines 341-434): clone when already YUYV;
fast byte-swap path for UYVY into a `2 * w * h` buffer; `ezk_image` otherwise. -/
def VideoFrame.to_yuyv (ezk : EzkConvert) (f : VideoFrame) : VideoFrame :=
  if f.format = .Yuyv then f
  else
    let w := f.width
    let h := f.height
    let yuyv_data : List UInt8 :=
      match f.format with
      | .Uyvy => swapInto (w * h * 2) f.data
      | .Rgba => fillBuffer (w * h * 2) (ezk .Rgba .Yuyv w h f.data)
      | .Rgb => fillBuffer (w * h * 2) (ezk .Rgb .Yuyv w h f.data)
      | .Nv12 => fillBuffer (w * h * 2) (ezk .Nv12 .Yuyv w h f.data)
      | .Yuyv => f.data
    { f with format := .Yuyv, data := yuyv_data }

/-- `VideoFrame::to_uyvy` (src/frame.rs lines 439-536): clone when already UYVY;
otherwise a YUYV image is produced in the `2 * w * h` staging buffer (for a YUYV
source via `copy_from_slice`, which requires the source data to have exactly the
buffer's length, modelled by using the data directly) and then swapped pairwise
in place. -/
def VideoFrame.to_uyvy (ezk : EzkConvert) (f : VideoFrame) : VideoFrame :=
  if f.format = .Uyvy then f
  else
    let w := f.width
    let h := f.height
    let staged : List UInt8 :=
      match f.format with
      | .Rgba => fillBuffer (w * h * 2) (ezk .Rgba .Yuyv w h f.data)
      | .Rgb => fillBuffer (w * h * 2) (ezk .Rgb .Yuyv w h f.data)
      | .Nv12 => fillBuffer (w * h * 2) (ezk .Nv12 .Yuyv w h f.data)
      | .Yuyv => f.data
      | .Uyvy => f.data
    { f with format := .Uyvy, data := swapInto staged.length staged }

/-- Byte layout of each format at the claimed sizes: 4·w·h for RGBA, 3·w·h for RGB,
2·w·h for YUYV/UYVY and, for NV12, the size `to_nv12` actually allocates:
`w·h + (w + w % 2) · ((h + 1) / 2)`. -/
def frameLayout : PixelFormat → Nat → Nat → Nat
  | .Rgb, w, h => w * h * 3
  | .Rgba, w, h => w * h * 4
  | .Yuyv, w, h => w * h * 2
  | .Uyvy, w, h => w * h * 2
  | .Nv12, w, h => w * h + (w + w % 2) * ((h + 1) / 2)

/-- A frame is well formed when its buffer has exactly its format's layout size,
the invariant stated in spec §3 for `Frame`. -/
def VideoFrame.WF (f : VideoFrame) : Prop :=
  f.data.length = frameLayout f.format f.width f.height

/-- The layout the spec text assigns to a format (`layout_bytes` of spec §8),
with NV12 as `3·w·h/2` read in natural-number arithmetic. -/
def layout_bytes : PixelFormat → Nat → Nat → Nat
  | .Rgb, w, h => 3 * w * h
  | .Rgba, w, h => 4 * w * h
  | .Yuyv, w, h => 2 * w * h
  | .Uyvy, w, h => 2 * w * h
  | .Nv12, w, h => 3 * w * h / 2

/-- Pairwise swap of adjacent bytes, as the spec describes UYVY relative to YUYV. -/
def pairSwap : List UInt8 → List UInt8
  | a :: b :: rest => b :: a :: pairSwap rest
  | l => l

/-! ## Bounded channels (`std::sync::mpsc::sync_channel`)

A sync channel is modelled by its capacity, its queue of pending items in FIFO
order, and whether the receiving side is still connected. -/

/-- State of a `std::sync::mpsc` bounded channel as seen by the sender. -/
structure SyncChannel (α : Type) where
  cap : Nat
  queue : List α
  connected : Bool
deriving DecidableEq, Repr

/-- Result of `SyncSender::try_send`: `Ok(())`, `Err(TrySendError::Full(t))`,
or `Err(TrySendError::Disconnected(t))`; the failing variants give the item back. -/
inductive TrySendResult (α : Type)
  | ok
  | full (a : α)
  | disconnected (a : α)
deriving DecidableEq, Repr

/-- `SyncSender::try_send`: never waits; enqueues when a buffer slot is free,
returns the item in `full` when the buffer holds `cap` unread items, and in
`disconnected` when the receiver is gone. -/
def SyncChannel.try_send {α : Type} (ch : SyncChannel α) (a : α) :
    SyncChannel α × TrySendResult α :=
  if ch.connected = false then (ch, .disconnected a)
  else if ch.queue.length < ch.cap then ({ ch with queue := ch.queue ++ [a] }, .ok)
  else (ch, .full a)

/-- One step of the blocking `SyncSender::send`: either the item is enqueued
immediately, or the producer thread blocks (`wouldBlock`) because all `cap`
slots are occupied, or the receiver is gone. -/
inductive SendOutcome (α : Type)
  | sent (ch : SyncChannel α)
  | wouldBlock
  | disconnected
deriving DecidableEq, Repr

/-- Blocking `SyncSender::send`, one step. -/
def SyncChannel.send {α : Type} (ch : SyncChannel α) (a : α) : SendOutcome α :=
  if ch.connected = false then .disconnected
  else if ch.queue.length < ch.cap then .sent { ch with queue := ch.queue ++ [a] }
  else .wouldBlock

/-- Capacity of the capture worker's frame channel:
`mpsc::sync_channel::<VideoFrame>(2)` in `AsyncCapture::new` (src/capture/mod.rs line 90). -/
def captureChannelCapacity : Nat := 2

/-- Capacity of the segmentation worker's input channel:
`mpsc::sync_channel::<VideoFrame>(1)` in `AsyncSegmentationEngine::new`
(src/ml/mod.rs line 198). -/
def segmentationChannelCapacity : Nat := 1

/-- Capacity of each auxiliary video decoder's frame channel:
`mpsc::sync_channel(5)` in `VideoPlayer::new` (src/video/mod.rs line 194). -/
def videoChannelCapacity : Nat := 5

/-- The capture thread's publication step (src/capture/mod.rs lines 121-130):
`frame_tx.try_send(frame)`, keeping the channel unchanged (the new frame is
dropped with a debug log) when the buffer is full. -/
def captureSubmit (ch : SyncChannel VideoFrame) (f : VideoFrame) : SyncChannel VideoFrame :=
  (ch.try_send f).1

/-- Observable outcome of `AsyncSegmentationEngine::try_predict`: whether the
frame was accepted, and whether the busy debug message was logged. -/
structure TryPredictResult where
  accepted : Bool
  debugLogged : Bool
deriving DecidableEq, Repr

/-- `AsyncSegmentationEngine::try_predict` (src/ml/mod.rs lines 225-235):
`try_send` on the one-slot channel; `Ok` returns true, `Full` logs at debug and
returns false, `Disconnected` returns false without logging. -/
def AsyncSegmentationEngine.try_predict (ch : SyncChannel VideoFrame) (f : VideoFrame) :
    SyncChannel VideoFrame × TryPredictResult :=
  match ch.try_send f with
  | (ch2, .ok) => (ch2, { accepted := true, debugLogged := false })
  | (ch2, .full _) => (ch2, { accepted := false, debugLogged := true })
  | (ch2, .disconnected _) => (ch2, { accepted := false, debugLogged := false })

/-- A completed segmentation result: mask bytes, width, height. -/
abbrev MaskResult := List UInt8 × Nat × Nat

/-- The drain loop of `AsyncSegmentationEngine::poll_result` (src/ml/mod.rs lines
239-244): `while let Ok(result) = self.mask_rx.try_recv() { latest = Some(result) }`. -/
def pollDrain : List MaskResult → Option MaskResult → Option MaskResult
  | [], latest => latest
  | m :: rest, _ => pollDrain rest (some m)

/-- `AsyncSegmentationEngine::poll_result` (src/ml/mod.rs lines 238-245), acting on
the pending results of the worker-to-loop channel: drains everything, keeps the
most recent. Returns the polled value and the channel contents afterwards. -/
def AsyncSegmentationEngine.poll_result (masks : List MaskResult) :
    Option MaskResult × List MaskResult :=
  (pollDrain masks none, [])

/-! ## Auxiliary video playback (`src/video/mod.rs`) -/

/-- `struct DecodedFrame` (src/video/mod.rs lines 61-66); the `f32` timestamp is
modelled as `ℚ`. -/
structure DecodedFrame where
  data : List UInt8
  width : Nat
  height : Nat
  timestamp : ℚ
deriving DecidableEq, Repr

/-- The decode thread's publication step (src/video/mod.rs line 320):
a blocking `tx.send(decoded)` on the capacity-5 channel. -/
def videoDecodeSubmit (ch : SyncChannel DecodedFrame) (f : DecodedFrame) :
    SendOutcome DecodedFrame :=
  ch.send f

/-- The playback-relevant state of a `VideoPlayer` (src/video/mod.rs lines 37-57):
the lazily initialised start time, the cached current and buffered next frame, and
the decoded frames currently pending in the channel, in arrival order. -/
structure PlayerState where
  start_time : Option ℚ
  current_frame : Option DecodedFrame
  next_frame : Option DecodedFrame
  queue : List DecodedFrame
deriving DecidableEq, Repr

/-- The `loop { match self.frame_rx.try_recv() ... }` of `VideoPlayer::get_frame`
(src/video/mod.rs lines 361-383): frames at or before `pt` replace the current
frame; the first later frame is stored as next and draining stops, leaving the
rest in the channel. Returns (current, next, remaining queue). -/
def drainLoop (pt : ℚ) :
    List DecodedFrame → Option DecodedFrame →
    Option DecodedFrame × Option DecodedFrame × List DecodedFrame
  | [], current => (current, none, [])
  | fr :: rest, current =>
      if fr.timestamp ≤ pt then drainLoop pt rest (some fr)
      else (current, some fr, rest)

/-- `VideoPlayer::get_frame` (src/video/mod.rs lines 341-386): set `start_time` on
first call, compute `playback_time = time - start`; if a buffered next frame exists
and is not yet due, return the current frame unchanged; otherwise promote it and
drain the channel. Returns the new state and the returned frame. -/
def VideoPlayer.get_frame (s : PlayerState) (time : ℚ) : PlayerState × Option DecodedFrame :=
  let start := s.start_time.getD time
  let playback_time := time - start
  match s.next_frame with
  | some fr =>
      if fr.timestamp ≤ playback_time then
        let r := drainLoop playback_time s.queue (some fr)
        ({ start_time := some start, current_frame := r.1, next_frame := r.2.1,
           queue := r.2.2 }, r.1)
      else
        ({ s with start_time := some start }, s.current_frame)
  | none =>
      let r := drainLoop playback_time s.queue s.current_frame
      ({ start_time := some start, current_frame := r.1, next_frame := r.2.1,
         queue := r.2.2 }, r.1)

/-- The last element of a list if it has one, a fallback otherwise. -/
def latestOr {α : Type} (l : List α) (c : Option α) : Option α :=
  match l.getLast? with
  | some x => some x
  | none => c

/-- The playback rule exactly as claim C5 words it (the spec-side definition for
the refinement): record `start` on the first call, compute
`playback_time = time - start`, take from the stream of pending frames (buffered
next frame first) all frames whose timestamps are ≤ playback_time and keep the
latest of them as current, retain the first strictly later frame as the buffered
next frame, and return the current frame (none if no frame has yet become due). -/
def specGetFrame (s : PlayerState) (time : ℚ) : PlayerState × Option DecodedFrame :=
  let start := s.start_time.getD time
  let pt := time - start
  let stream := s.next_frame.toList ++ s.queue
  let due := stream.takeWhile fun fr => decide (fr.timestamp ≤ pt)
  let rest := stream.dropWhile fun fr => decide (fr.timestamp ≤ pt)
  let current := latestOr due s.current_frame
  ({ start_time := some start, current_frame := current, next_frame := rest.head?,
     queue := rest.tail }, current)

/-! ## Shader reflection and segmentation gating (`src/shader/wgpu_pipeline.rs`)

A shader source is represented by the outcome of reflecting its compiled `naga`
module: the list of `(group, binding)` resource bindings of its global variables.
For WGSL sources the reflection can fail (`naga::front::wgsl::parse_str` error),
which `wgsl_uses_mask` maps to `false`. -/

/-- `enum ShaderSource` (src/shader/mod.rs), abstracted to its reflection outcome. -/
inductive ShaderSource
  | glsl (bindings : List (Nat × Nat))
  | wgsl (bindings : Option (List (Nat × Nat)))
deriving DecidableEq, Repr

/-- Whether reflection finds a global variable bound at group 0, binding 3
(`glsl_to_wgsl` lines 728-730 and `wgsl_uses_mask` lines 739-746 of
src/shader/wgpu_pipeline.rs). -/
def shader_uses_mask : ShaderSource → Bool
  | .glsl bs => bs.any fun b => b == (0, 3)
  | .wgsl (some bs) => bs.any fun b => b == (0, 3)
  | .wgsl none => false

/-- The `needs_segmentation` flag computed in `WgpuPipeline::new` (src/shader/
wgpu_pipeline.rs lines 143-166): stays false when no shaders are given (the default
passthrough fragment shader is used instead), otherwise true when any shader's
reflection shows the mask binding. -/
def needs_segmentation (shaders : List ShaderSource) : Bool :=
  if shaders.isEmpty then false
  else shaders.any shader_uses_mask

/-- Whether `WgpuPipeline::new` constructs the segmentation worker
(src/shader/wgpu_pipeline.rs lines 342-346): exactly when `needs_segmentation`
holds. `AsyncSegmentationEngine::new` errors abort pipeline construction
entirely, so a successfully constructed pipeline follows this flag. -/
def segmentation_worker_spawned (shaders : List ShaderSource) : Bool :=
  needs_segmentation shaders

/-! ## Per-frame GPU resource management (`src/shader/wgpu_pipeline.rs`)

Textures are modelled by their `(width, height)` extents; GPU memory contents,
submitted at fixed sizes derived from those extents, are abstracted. -/

/-- The dimension-relevant state of `WgpuPipeline` (src/shader/wgpu_pipeline.rs
lines 71-109): configured output size, number of compiled stage pipelines, the
cached sizes, and the extents of the managed textures. -/
structure PipelineState where
  output_width : Nat
  output_height : Nat
  render_pipelines : Nat
  mask_texture : Nat × Nat
  input_texture : Option (Nat × Nat)
  output_textures : List (Nat × Nat)
  readback_buffer : Option Nat
  cached_width : Nat
  cached_height : Nat
  cached_mask_width : Nat
  cached_mask_height : Nat
deriving DecidableEq, Repr

/-- `WgpuPipeline::ensure_resources` (src/shader/wgpu_pipeline.rs lines 601-696):
no-op when all four cached sizes match; otherwise re-create the mask texture if
its size changed, the input texture at the frame size, one intermediate output
texture per stage at `output_width x output_height`, the readback buffer of
`output_width * output_height * 4` bytes, and update the cached sizes. -/
def WgpuPipeline.ensure_resources (p : PipelineState)
    (width height mask_w mask_h : Nat) : PipelineState :=
  if p.cached_width = width ∧ p.cached_height = height ∧
     p.cached_mask_width = mask_w ∧ p.cached_mask_height = mask_h then p
  else
    { p with
      mask_texture :=
        if p.cached_mask_width ≠ mask_w ∨ p.cached_mask_height ≠ mask_h then (mask_w, mask_h)
        else p.mask_texture
      input_texture := some (width, height)
      output_textures := List.replicate p.render_pipelines (p.output_width, p.output_height)
      readback_buffer := some (p.output_width * p.output_height * 4)
      cached_width := width
      cached_height := height
      cached_mask_width := mask_w
      cached_mask_height := mask_h }

/-- The dimension flow of `WgpuPipeline::process_frame` (src/shader/wgpu_pipeline.rs
lines 756-935): convert the input to RGBA, take the polled mask size (falling back
to the cached one, then to 1x1 when zero), ensure resources, re-ensure with a
forced cache miss when a video texture was re-allocated, and return the readback
result as an RGBA frame at `output_width x output_height`. `mask_result` is the
size of the mask polled this frame, if any; `video_resize` says whether a video
slot texture changed size; `gpu_output` is the mapped readback buffer contents. -/
def WgpuPipeline.process_frame (ezk : EzkConvert) (p : PipelineState) (input : VideoFrame)
    (mask_result : Option (Nat × Nat)) (video_resize : Bool) (gpu_output : List UInt8) :
    PipelineState × VideoFrame :=
  let rgba_input := input.to_rgba ezk
  let mask_w := match mask_result with
    | some r => r.1
    | none => p.cached_mask_width
  let mask_h := match mask_result with
    | some r => r.2
    | none => p.cached_mask_height
  let final_mask_w := if mask_w = 0 then 1 else mask_w
  let final_mask_h := if mask_h = 0 then 1 else mask_h
  let p1 := WgpuPipeline.ensure_resources p rgba_input.width rgba_input.height
    final_mask_w final_mask_h
  let p2 :=
    if video_resize then
      WgpuPipeline.ensure_resources { p1 with cached_width := 0 } rgba_input.width
        rgba_input.height final_mask_w final_mask_h
    else p1
  (p2, VideoFrame.from_data p2.output_width p2.output_height .Rgba gpu_output)

/-! ## Row strides of the per-frame copies (`src/shader/wgpu_pipeline.rs`) -/

/-- The wgpu `COPY_BYTES_PER_ROW_ALIGNMENT` the spec refers to (256). -/
def bytes_per_row_alignment : Nat := 256

/-- The padded mask row stride of `process_frame` (src/shader/wgpu_pipeline.rs
lines 795-796): `(w + align_mask) & !align_mask` with `align_mask = 255`, i.e.
`w` rounded up to the next multiple of 256 (no `usize` overflow for any `u32` w). -/
def mask_padded_width (w : Nat) : Nat := (w + 255) / 256 * 256

/-- `bytes_per_row` of the mask `write_texture` (src/shader/wgpu_pipeline.rs
line 812): the padded width, whether or not padding was needed. -/
def mask_upload_bytes_per_row (w : Nat) : Nat := mask_padded_width w

/-- `bytes_per_row` of the camera-frame `write_texture` (src/shader/
wgpu_pipeline.rs line 875): `rgba_input.width * 4`, unpadded. -/
def camera_upload_bytes_per_row (w : Nat) : Nat := w * 4

/-- `bytes_per_row` of the video-slot `write_texture` (src/shader/
wgpu_pipeline.rs line 856): `frame.width * 4`, unpadded. -/
def video_upload_bytes_per_row (w : Nat) : Nat := w * 4

/-- `bytes_per_row` of the output `copy_texture_to_buffer` (src/shader/
wgpu_pipeline.rs line 912): `output_width * 4`, unpadded. -/
def readback_bytes_per_row (output_width : Nat) : Nat := output_width * 4

/-! ## Streaming URL resolution (`src/video/mod.rs`) -/

/-- `enum StreamingPlatform` (src/video/mod.rs lines 16-19). -/
inductive StreamingPlatform
  | youTube
  | twitch
deriving DecidableEq, Repr

/-- Host extraction of the external `url` crate as `detect_streaming_platform`
uses it (`Url::parse(input).ok()?.host_str()?`), modelled for
`scheme://host[:port]/...` inputs without userinfo: the text between the first
`://` and the next `/`, `?`, `#` or `:`, provided scheme and host are nonempty.
Strings without a `scheme://` head (plain file paths) give none, as
`Url::parse` fails on them. -/
def url_host (input : String) : Option String :=
  let cs := input.data
  let scheme := cs.takeWhile fun c => c != ':'
  let rest := cs.drop scheme.length
  match rest with
  | ':' :: '/' :: '/' :: tail =>
      let authority := tail.takeWhile fun c => (c != '/') && (c != '?') && (c != '#')
      let host := authority.takeWhile fun c => c != ':'
      if scheme = [] ∨ host = [] then none else some (String.mk host)
  | _ => none

/-- The `host.strip_prefix("www.").unwrap_or(host)` step of
`detect_streaming_platform` (src/video/mod.rs line 27): remove one literal
leading `www.` when present. -/
def domain_of_host (host : String) : String :=
  match host.data with
  | 'w' :: 'w' :: 'w' :: '.' :: rest => String.mk rest
  | _ => host

/-- `detect_streaming_platform` (src/video/mod.rs lines 22-34): parse the URL,
take its host, strip a leading `www.`, and compare the remaining domain for
exact equality with `youtube.com`, `youtu.be` or `twitch.tv`. -/
def detect_streaming_platform (input : String) : Option StreamingPlatform :=
  match url_host input with
  | none => none
  | some host =>
      let domain := domain_of_host host
      if domain = "youtube.com" ∨ domain = "youtu.be" then some .youTube
      else if domain = "twitch.tv" then some .twitch
      else none

/-- Arguments `VideoPlayer::new` passes to `yt-dlp` (src/video/mod.rs line 80):
print the direct URL of the best AVC video stream of height ≤ 1080, with fallbacks. -/
def yt_dlp_args (input : String) : List String :=
  ["-g", "-f", "bestvideo[height<=1080][vcodec^=avc1]/bestvideo[height<=1080]/best", input]

/-- Arguments `VideoPlayer::new` passes to `streamlink` (src/video/mod.rs line 100). -/
def streamlink_args (input : String) : List String :=
  ["--stream-url", input, "best"]

/-- Which external resolver tool `VideoPlayer::new` invokes for a given input
(src/video/mod.rs lines 76-119), as (program, arguments); none means the input
is passed through unchanged to ffprobe/ffmpeg. -/
def resolver_invocation (input : String) : Option (String × List String) :=
  match detect_streaming_platform input with
  | some .youTube => some ("yt-dlp", yt_dlp_args input)
  | some .twitch => some ("streamlink", streamlink_args input)
  | none => none

/-- The `resolved_path` computed by `VideoPlayer::new` (src/video/mod.rs lines
76-119), with the two resolver subprocesses abstracted as functions from the
input URL to the direct media URL they print. -/
def resolved_path (yt tw : String → String) (input : String) : String :=
  match detect_streaming_platform input with
  | some .youTube => yt input
  | some .twitch => tw input
  | none => input

/-! ## Supporting lemmas -/

theorem fillBuffer_length (n : Nat) (c : List UInt8) : (fillBuffer n c).length = n := by
  simp [fillBuffer]

theorem swapInto_length (n : Nat) (d : List UInt8) : (swapInto n d).length = n := by
  simp [swapInto]

theorem swapInto_cons₂ (n : Nat) (a b : UInt8) (l : List UInt8) :
    swapInto (n + 2) (a :: b :: l) = b :: a :: swapInto n l := by
  unfold swapInto
  rw [show n + 2 = (n + 1) + 1 from rfl, List.range_succ_eq_map, List.range_succ_eq_map]
  simp only [List.map_cons, List.map_map]
  refine congrArg₂ _ ?_ (congrArg₂ _ ?_ ?_)
  · simp
  · simp
  · refine List.map_congr_left fun j _ => ?_
    have h2 : (Nat.succ ∘ Nat.succ) j = j + 2 := rfl
    by_cases hj : j % 2 = 0
    · have : (j + 2) % 2 = 0 := by omega
      simp only [Function.comp, h2, this, hj, if_true, List.length_cons]
      by_cases hlt : j + 1 < l.length
      · have : j + 2 + 1 < l.length + 1 + 1 := by omega
        simp [this, hlt, List.getD_cons_succ]
      · have : ¬ (j + 2 + 1 < l.length + 1 + 1) := by omega
        simp [this, hlt]
    · have : ¬ ((j + 2) % 2 = 0) := by omega
      simp only [Function.comp, h2, this, hj, if_false, List.length_cons]
      by_cases hlt : j < l.length
      · have h1 : j + 2 < l.length + 1 + 1 := by omega
        have h3 : j + 2 - 1 = (j - 1) + 1 + 1 := by omega
        simp [h1, hlt, h3, List.getD_cons_succ]
      · have : ¬ (j + 2 < l.length + 1 + 1) := by omega
        simp [this, hlt]

theorem swapInto_eq_pairSwap (l : List UInt8) (h : l.length % 2 = 0) :
    swapInto l.length l = pairSwap l := by
  induction l using pairSwap.induct with
  | case1 a b rest ih =>
      have : (a :: b :: rest).length = rest.length + 2 := by simp
      rw [this, swapInto_cons₂, pairSwap]
      have hr : rest.length % 2 = 0 := by simp at h; omega
      rw [ih hr]
  | case2 l hl =>
      cases l with
      | nil => rfl
      | cons x t =>
          cases t with
          | nil => simp at h
          | cons y t2 => exact absurd rfl (hl x y t2)

theorem pairSwap_length (l : List UInt8) : (pairSwap l).length = l.length := by
  induction l using pairSwap.induct with
  | case1 a b rest ih => simp [pairSwap, ih]
  | case2 l hl =>
      cases l with
      | nil => rfl
      | cons x t =>
          cases t with
          | nil => rfl
          | cons y t2 => exact absurd rfl (hl x y t2)

theorem pairSwap_pairSwap (l : List UInt8) : pairSwap (pairSwap l) = l := by
  induction l using pairSwap.induct with
  | case1 a b rest ih => simp [pairSwap, ih]
  | case2 l hl =>
      cases l with
      | nil => rfl
      | cons x t =>
          cases t with
          | nil => rfl
          | cons y t2 => exact absurd rfl (hl x y t2)

theorem rgb_expand_length (d : List UInt8) (n : Nat) :
    ((List.range n).flatMap fun i =>
      [d.getD (i * 3) 0, d.getD (i * 3 + 1) 0, d.getD (i * 3 + 2) 0, 255]).length = n * 4 := by
  induction n with
  | zero => rfl
  | succ k ih =>
      rw [List.range_succ, List.flatMap_append, List.length_append, ih]
      simp [Nat.succ_mul]

theorem nv12_layout_even (w h : Nat) (hw : w % 2 = 0) (hh : h % 2 = 0) :
    w * h + (w + w % 2) * ((h + 1) / 2) = 3 * w * h / 2 := by
  obtain ⟨a, rfl⟩ : ∃ a, w = 2 * a := ⟨w / 2, by omega⟩
  obtain ⟨b, rfl⟩ : ∃ b, h = 2 * b := ⟨h / 2, by omega⟩
  have h1 : (2 * b + 1) / 2 = b := by omega
  have h2 : 2 * a % 2 = 0 := by omega
  rw [h1, h2]
  have h3 : 3 * (2 * a) * (2 * b) = 3 * (a * (2 * b)) * 2 := by ring
  rw [h3, Nat.mul_div_cancel _ (by norm_num)]
  ring

/-! ## Claim C3 -/

/-- Claim C3 as stated is false: the spec assigns NV12 the byte layout `3·w·h/2`,
but `to_nv12` on a well-formed 2x1 RGBA frame allocates
`w·h + (w + w % 2)·((h + 1)/2) = 2 + 2·1 = 4` bytes, not `3·2·1/2 = 3`. -/
theorem spec_c3_counterexample :
    ((VideoFrame.from_data 2 1 .Rgba [0, 0, 0, 0, 0, 0, 0, 0]).to_nv12
        (fun _ _ _ _ _ => [])).data.length ≠ layout_bytes .Nv12 2 1 := by
  decide

/-- Claim C3, amended: for every well-formed frame and every conversion, the
returned data length is exactly its format's layout for width x height: 4·w·h
for RGBA, 2·w·h for YUYV and UYVY, and for NV12 the allocated
`w·h + (w + w % 2)·((h + 1)/2)` bytes, which equals `3·w·h/2` exactly when both
dimensions are even (hence for all standard video sizes). -/
theorem to_rgba_length (ezk : EzkConvert) (f : VideoFrame) (hwf : f.WF) :
    (f.to_rgba ezk).data.length = f.width * f.height * 4 := by
  obtain ⟨w, h, fmt, ts, d⟩ := f
  simp only [VideoFrame.WF] at hwf
  cases fmt with
  | Rgb => simpa [VideoFrame.to_rgba] using rgb_expand_length d (w * h)
  | Rgba => simp [VideoFrame.to_rgba, hwf, frameLayout]
  | Yuyv => simp [VideoFrame.to_rgba, fillBuffer_length]
  | Uyvy => simp [VideoFrame.to_rgba, fillBuffer_length]
  | Nv12 => simp [VideoFrame.to_rgba, fillBuffer_length]

theorem to_yuyv_length (ezk : EzkConvert) (f : VideoFrame) (hwf : f.WF) :
    (f.to_yuyv ezk).data.length = f.width * f.height * 2 := by
  obtain ⟨w, h, fmt, ts, d⟩ := f
  simp only [VideoFrame.WF] at hwf
  cases fmt <;>
    simp [VideoFrame.to_yuyv, fillBuffer_length, swapInto_length, hwf, frameLayout]

theorem to_uyvy_length (ezk : EzkConvert) (f : VideoFrame) (hwf : f.WF) :
    (f.to_uyvy ezk).data.length = f.width * f.height * 2 := by
  obtain ⟨w, h, fmt, ts, d⟩ := f
  simp only [VideoFrame.WF] at hwf
  cases fmt <;>
    simp [VideoFrame.to_uyvy, fillBuffer_length, swapInto_length, hwf, frameLayout]

theorem to_nv12_length (ezk : EzkConvert) (f : VideoFrame) (hwf : f.WF) :
    (f.to_nv12 ezk).data.length
      = f.width * f.height + (f.width + f.width % 2) * ((f.height + 1) / 2) := by
  obtain ⟨w, h, fmt, ts, d⟩ := f
  simp only [VideoFrame.WF] at hwf
  cases fmt <;>
    simp [VideoFrame.to_nv12, fillBuffer_length, swapInto_length, hwf, frameLayout]

/-- Claim C3, amended: for every well-formed frame and every conversion, the
returned data length is exactly its format's layout for width x height: 4·w·h
for RGBA, 2·w·h for YUYV and UYVY, and for NV12 the allocated
`w·h + (w + w % 2)·((h + 1)/2)` bytes, which equals `3·w·h/2` exactly when both
dimensions are even (hence for all standard video sizes). -/
theorem spec_c3_amended (ezk : EzkConvert) (f : VideoFrame) (hwf : f.WF) :
    (f.to_rgba ezk).data.length = f.width * f.height * 4
  ∧ (f.to_yuyv ezk).data.length = f.width * f.height * 2
  ∧ (f.to_uyvy ezk).data.length = f.width * f.height * 2
  ∧ (f.to_nv12 ezk).data.length
      = f.width * f.height + (f.width + f.width % 2) * ((f.height + 1) / 2)
  ∧ (f.width % 2 = 0 → f.height % 2 = 0 →
      (f.to_nv12 ezk).data.length = layout_bytes .Nv12 f.width f.height) := by
  refine ⟨to_rgba_length ezk f hwf, to_yuyv_length ezk f hwf, to_uyvy_length ezk f hwf,
    to_nv12_length ezk f hwf, fun hw hh => ?_⟩
  rw [to_nv12_length ezk f hwf, nv12_layout_even f.width f.height hw hh]
  rfl

/-- Concrete instance of `spec_c3_amended` at a well-formed 2x2 RGBA frame. -/
theorem spec_c3_amended_witness :
    ((VideoFrame.from_data 2 2 .Rgba (List.replicate 16 0)).to_nv12
        (fun _ _ _ _ _ => [])).data.length = layout_bytes .Nv12 2 2 :=
  (spec_c3_amended (fun _ _ _ _ _ => []) (VideoFrame.from_data 2 2 .Rgba (List.replicate 16 0))
    rfl).2.2.2.2 rfl rfl

/-! ## Claim C9 -/

/-- Claim C9: for every well-formed frame, `to_uyvy` returns exactly `to_yuyv`
with each adjacent byte pair swapped, and `f.to_yuyv().to_uyvy()` equals
`f.to_uyvy()` byte for byte (indeed as whole frames). The well-formedness
hypothesis is the spec's own frame invariant; the YUYV source path of `to_uyvy`
(`copy_from_slice`) requires it in the source as well. -/
theorem spec_c9 (ezk : EzkConvert) (f : VideoFrame) (hwf : f.WF) :
    (f.to_uyvy ezk).data = pairSwap ((f.to_yuyv ezk).data)
  ∧ (f.to_yuyv ezk).to_uyvy ezk = f.to_uyvy ezk := by
  obtain ⟨w, h, fmt, ts, d⟩ := f
  simp only [VideoFrame.WF, frameLayout] at hwf
  cases fmt with
  | Rgb =>
      refine ⟨?_, ?_⟩
      · simp only [VideoFrame.to_uyvy, VideoFrame.to_yuyv]
        exact swapInto_eq_pairSwap _ (by rw [fillBuffer_length]; exact Nat.mul_mod_left _ _)
      · rfl
  | Rgba =>
      refine ⟨?_, ?_⟩
      · simp only [VideoFrame.to_uyvy, VideoFrame.to_yuyv]
        exact swapInto_eq_pairSwap _ (by rw [fillBuffer_length]; exact Nat.mul_mod_left _ _)
      · rfl
  | Nv12 =>
      refine ⟨?_, ?_⟩
      · simp only [VideoFrame.to_uyvy, VideoFrame.to_yuyv]
        exact swapInto_eq_pairSwap _ (by rw [fillBuffer_length]; exact Nat.mul_mod_left _ _)
      · rfl
  | Yuyv =>
      refine ⟨?_, ?_⟩
      · simp only [VideoFrame.to_uyvy, VideoFrame.to_yuyv]
        exact swapInto_eq_pairSwap d (by rw [hwf]; exact Nat.mul_mod_left _ _)
      · rfl
  | Uyvy =>
      have hwf2 : d.length = w * h * 2 := hwf
      have heven : d.length % 2 = 0 := by rw [hwf2]; exact Nat.mul_mod_left _ _
      refine ⟨?_, ?_⟩
      · simp only [VideoFrame.to_uyvy, VideoFrame.to_yuyv, reduceCtorEq, reduceIte]
        rw [← hwf2, swapInto_eq_pairSwap d heven, pairSwap_pairSwap]
      · simp only [VideoFrame.to_uyvy, VideoFrame.to_yuyv, reduceCtorEq, reduceIte]
        rw [← hwf2, swapInto_eq_pairSwap d heven]
        rw [swapInto_eq_pairSwap (pairSwap d) (by rw [pairSwap_length]; exact heven)]
        rw [pairSwap_pairSwap]

/-- Concrete instance of `spec_c9` at a well-formed 1x1 YUYV frame. -/
theorem spec_c9_witness :
    ((VideoFrame.from_data 1 1 .Yuyv [10, 20]).to_uyvy (fun _ _ _ _ _ => [])).data
      = pairSwap (((VideoFrame.from_data 1 1 .Yuyv [10, 20]).to_yuyv
          (fun _ _ _ _ _ => [])).data) :=
  (spec_c9 (fun _ _ _ _ _ => []) (VideoFrame.from_data 1 1 .Yuyv [10, 20]) rfl).1

/-! ## Claim C10 -/

/-- Claim C10: `VideoFrame::new(w, h, Nv12)` returns a zero-filled buffer of
exactly `w·h` bytes (the Y plane only, `bytes_per_pixel` being 1 for NV12),
strictly smaller than the full NV12 layout of `3·w·h/2` bytes (stated
multiplied out as `2·len < 3·w·h` to avoid fractional bytes) whenever the
dimensions are positive. -/
theorem spec_c10 (w h : Nat) (hw : 0 < w) (hh : 0 < h) :
    (VideoFrame.new w h .Nv12).data.length = w * h
  ∧ (∀ b ∈ (VideoFrame.new w h .Nv12).data, b = 0)
  ∧ PixelFormat.bytes_per_pixel .Nv12 = 1
  ∧ 2 * (VideoFrame.new w h .Nv12).data.length < 3 * (w * h) := by
  refine ⟨?_, ?_, rfl, ?_⟩
  · simp [VideoFrame.new, PixelFormat.bytes_per_pixel]
  · intro b hb
    simp only [VideoFrame.new] at hb
    exact (List.eq_of_mem_replicate hb)
  · have hk : 0 < w * h := Nat.mul_pos hw hh
    simp only [VideoFrame.new, PixelFormat.bytes_per_pixel, List.length_replicate]
    nlinarith

/-- Concrete instance of `spec_c10` at 2x2. -/
theorem spec_c10_witness :
    (VideoFrame.new 2 2 .Nv12).data.length = 2 * 2
    ∧ 2 * (VideoFrame.new 2 2 .Nv12).data.length < 3 * (2 * 2) :=
  ⟨(spec_c10 2 2 (by norm_num) (by norm_num)).1,
   (spec_c10 2 2 (by norm_num) (by norm_num)).2.2.2⟩

/-! ## Claim C5 -/

theorem latestOr_cons {α : Type} (a : α) (l : List α) (c : Option α) :
    latestOr (a :: l) c = latestOr l (some a) := by
  cases l with
  | nil => rfl
  | cons b t =>
      simp only [latestOr, List.getLast?_cons_cons]
      cases hbt : (b :: t).getLast? with
      | none => exact absurd hbt (by simp)
      | some x => rfl

/-- The channel-drain loop of `get_frame` computes the latest due frame as
current, the first later frame as next, and leaves the remainder queued. -/
theorem drainLoop_spec (pt : ℚ) (q : List DecodedFrame) :
    ∀ c, drainLoop pt q c =
      (latestOr (q.takeWhile fun fr => decide (fr.timestamp ≤ pt)) c,
       (q.dropWhile fun fr => decide (fr.timestamp ≤ pt)).head?,
       (q.dropWhile fun fr => decide (fr.timestamp ≤ pt)).tail) := by
  induction q with
  | nil => intro c; rfl
  | cons fr rest ih =>
      intro c
      by_cases hd : fr.timestamp ≤ pt
      · rw [drainLoop, if_pos hd, ih (some fr)]
        simp [List.takeWhile_cons, List.dropWhile_cons, hd, latestOr_cons]
      · rw [drainLoop, if_neg hd]
        simp [List.takeWhile_cons, List.dropWhile_cons, hd, latestOr]

/-- Claim C5: `VideoPlayer::get_frame` coincides with the playback rule of the
claim (`specGetFrame`): the first call records `start = t`, every call computes
`playback_time = t - start`, frames with timestamps ≤ playback_time are drained
with the latest kept as current, the first strictly later frame is buffered as
next (shown only once its time is reached), and the current frame is returned,
none while no frame has become due. -/
theorem spec_c5 (s : PlayerState) (time : ℚ) :
    VideoPlayer.get_frame s time = specGetFrame s time := by
  obtain ⟨st, cur, nxt, q⟩ := s
  cases nxt with
  | none =>
      simp [VideoPlayer.get_frame, specGetFrame, drainLoop_spec]
  | some fr =>
      by_cases hd : fr.timestamp ≤ time - (Option.getD st time)
      · simp [VideoPlayer.get_frame, specGetFrame, drainLoop_spec, hd, latestOr_cons]
      · simp [VideoPlayer.get_frame, specGetFrame, hd, latestOr]

/-! ## Claim C6 -/

theorem pollDrain_eq (q : List MaskResult) : ∀ acc, pollDrain q acc = latestOr q acc := by
  induction q with
  | nil => intro acc; rfl
  | cons m rest ih => intro acc; rw [pollDrain, ih (some m), latestOr_cons]

/-- Claim C6: submitting to the live segmentation worker never blocks — with the
one-slot input queue full, `try_predict` returns false, drops the frame (the
channel is unchanged) and logs the debug message; with the slot free it returns
true. `poll_result` drains the result channel completely and returns the most
recent completed result, or none when no new result is available. -/
theorem spec_c6 (ch : SyncChannel VideoFrame) (f : VideoFrame) (masks : List MaskResult)
    (hcap : ch.cap = segmentationChannelCapacity) (hconn : ch.connected = true) :
    (1 ≤ ch.queue.length →
       (AsyncSegmentationEngine.try_predict ch f).2.accepted = false
       ∧ (AsyncSegmentationEngine.try_predict ch f).2.debugLogged = true
       ∧ (AsyncSegmentationEngine.try_predict ch f).1 = ch)
  ∧ (ch.queue.length = 0 → (AsyncSegmentationEngine.try_predict ch f).2.accepted = true)
  ∧ (AsyncSegmentationEngine.poll_result masks).1 = masks.getLast?
  ∧ (AsyncSegmentationEngine.poll_result masks).2 = []
  ∧ (masks = [] → (AsyncSegmentationEngine.poll_result masks).1 = none) := by
  have hpoll : (AsyncSegmentationEngine.poll_result masks).1 = masks.getLast? := by
    rw [AsyncSegmentationEngine.poll_result, pollDrain_eq]
    cases hq : masks.getLast? <;> simp [latestOr, hq]
  have hcap1 : ch.cap = 1 := hcap
  refine ⟨?_, ?_, hpoll, rfl, ?_⟩
  · intro hfull
    have hnot : ¬ ch.queue.length < ch.cap := by rw [hcap1]; omega
    simp [AsyncSegmentationEngine.try_predict, SyncChannel.try_send, hconn, hnot]
  · intro hempty
    have hlt : ch.queue.length < ch.cap := by rw [hcap1, hempty]; omega
    simp [AsyncSegmentationEngine.try_predict, SyncChannel.try_send, hconn, hlt]
  · intro hnil
    rw [hpoll, hnil]
    rfl

/-- Concrete instance of `spec_c6`: a full one-slot queue rejects the frame. -/
theorem spec_c6_witness :
    (AsyncSegmentationEngine.try_predict
        ⟨segmentationChannelCapacity, [VideoFrame.new 1 1 .Rgba], true⟩
        (VideoFrame.new 2 2 .Rgba)).2.accepted = false :=
  ((spec_c6 ⟨segmentationChannelCapacity, [VideoFrame.new 1 1 .Rgba], true⟩
      (VideoFrame.new 2 2 .Rgba) [] rfl rfl).1 (by decide)).1

/-! ## Claim C1 -/

/-- Claim C1 as stated is false: the capture worker's handoff has capacity two —
from the empty channel two consecutive producer submissions are both accepted,
leaving two unread frames — and an auxiliary video decoder's producer does block:
`send` on its full five-slot channel returns `wouldBlock` instead of dropping. -/
theorem spec_c1_counterexample :
    (captureSubmit (captureSubmit ⟨captureChannelCapacity, [], true⟩ (VideoFrame.new 1 1 .Rgba))
        (VideoFrame.new 1 1 .Rgba)).queue.length = 2
  ∧ videoDecodeSubmit ⟨videoChannelCapacity, List.replicate 5 ⟨[], 1, 1, 0⟩, true⟩
      ⟨[], 1, 1, 0⟩ = .wouldBlock := by
  constructor
  · rfl
  · rfl

/-- Claim C1, amended: the segmentation handoff is a one-slot non-blocking
mailbox (at most one unread frame; a submission into the occupied slot returns
immediately, dropping the new frame and keeping the stored one); the capture
handoff follows the same non-blocking drop-newest pattern but with capacity two
(at most two unread frames); each auxiliary video decoder instead uses a bounded
five-slot channel whose producer blocks exactly while all five slots are full. -/
theorem spec_c1_amended
    (chS chC : SyncChannel VideoFrame) (chV : SyncChannel DecodedFrame)
    (f : VideoFrame) (g : DecodedFrame)
    (hS : chS.cap = segmentationChannelCapacity) (hSc : chS.connected = true)
    (hSq : chS.queue.length ≤ 1)
    (hC : chC.cap = captureChannelCapacity) (hCc : chC.connected = true)
    (hCq : chC.queue.length ≤ 2)
    (hV : chV.cap = videoChannelCapacity) (hVc : chV.connected = true) :
    captureChannelCapacity = 2 ∧ segmentationChannelCapacity = 1 ∧ videoChannelCapacity = 5
  ∧ (AsyncSegmentationEngine.try_predict chS f).1.queue.length ≤ 1
  ∧ (chS.queue.length = 1 → (AsyncSegmentationEngine.try_predict chS f).1 = chS)
  ∧ (captureSubmit chC f).queue.length ≤ 2
  ∧ (chC.queue.length = 2 → captureSubmit chC f = chC)
  ∧ (videoDecodeSubmit chV g = .wouldBlock ↔ 5 ≤ chV.queue.length) := by
  have hS1 : chS.cap = 1 := hS
  have hC2 : chC.cap = 2 := hC
  have hV5 : chV.cap = 5 := hV
  refine ⟨rfl, rfl, rfl, ?_, ?_, ?_, ?_, ?_⟩
  · by_cases hlt : chS.queue.length < chS.cap
    · simp [AsyncSegmentationEngine.try_predict, SyncChannel.try_send, hSc, hlt]
      rw [hS1] at hlt
      exact List.length_eq_zero.mp (by omega)
    · simp [AsyncSegmentationEngine.try_predict, SyncChannel.try_send, hSc, hlt, hSq]
  · intro hfull
    have hnot : ¬ chS.queue.length < chS.cap := by rw [hS1]; omega
    simp [AsyncSegmentationEngine.try_predict, SyncChannel.try_send, hSc, hnot]
  · by_cases hlt : chC.queue.length < chC.cap
    · simp [captureSubmit, SyncChannel.try_send, hCc, hlt]
      rw [hC2] at hlt
      omega
    · simp [captureSubmit, SyncChannel.try_send, hCc, hlt, hCq]
  · intro hfull
    have hnot : ¬ chC.queue.length < chC.cap := by rw [hC2]; omega
    simp [captureSubmit, SyncChannel.try_send, hCc, hnot]
  · constructor
    · intro hblock
      by_contra hlt
      have hin : chV.queue.length < chV.cap := by rw [hV5]; omega
      simp [videoDecodeSubmit, SyncChannel.send, hVc, hin] at hblock
    · intro hge
      have hnot : ¬ chV.queue.length < chV.cap := by rw [hV5]; omega
      simp [videoDecodeSubmit, SyncChannel.send, hVc, hnot]

/-- Concrete instance of `spec_c1_amended`: the occupied one-slot segmentation
mailbox is left unchanged by a new submission, and the full video channel blocks. -/
theorem spec_c1_amended_witness :
    (AsyncSegmentationEngine.try_predict
          ⟨segmentationChannelCapacity, [VideoFrame.new 1 1 .Rgba], true⟩
          (VideoFrame.new 2 2 .Rgba)).1
        = ⟨segmentationChannelCapacity, [VideoFrame.new 1 1 .Rgba], true⟩
    ∧ (videoDecodeSubmit ⟨videoChannelCapacity, List.replicate 5 ⟨[], 1, 1, 0⟩, true⟩
          ⟨[], 1, 1, 0⟩ = .wouldBlock ↔
        5 ≤ (List.replicate (5 : Nat) (⟨[], 1, 1, 0⟩ : DecodedFrame)).length) := by
  have h := spec_c1_amended
    ⟨segmentationChannelCapacity, [VideoFrame.new 1 1 .Rgba], true⟩
    ⟨captureChannelCapacity, [], true⟩
    ⟨videoChannelCapacity, List.replicate 5 ⟨[], 1, 1, 0⟩, true⟩
    (VideoFrame.new 2 2 .Rgba) ⟨[], 1, 1, 0⟩
    rfl rfl (by decide) rfl rfl (by decide) rfl rfl
  exact ⟨h.2.2.2.2.1 rfl, h.2.2.2.2.2.2.2⟩

/-! ## Claim C2 -/

theorem ensure_resources_output_size (q : PipelineState) (a b c d : Nat) :
    (WgpuPipeline.ensure_resources q a b c d).output_width = q.output_width
  ∧ (WgpuPipeline.ensure_resources q a b c d).output_height = q.output_height := by
  unfold WgpuPipeline.ensure_resources
  split
  · exact ⟨rfl, rfl⟩
  · exact ⟨rfl, rfl⟩

theorem ensure_resources_inv (q : PipelineState) (a b c d : Nat)
    (hq : ∀ x ∈ q.output_textures, x = (q.output_width, q.output_height)) :
    ∀ x ∈ (WgpuPipeline.ensure_resources q a b c d).output_textures,
      x = (q.output_width, q.output_height) := by
  unfold WgpuPipeline.ensure_resources
  split
  · exact hq
  · exact fun x hx => List.eq_of_mem_replicate hx

/-- Claim C2: for every camera input frame of any size and supported format,
`process_frame` returns a frame whose width and height are the configured output
width and height, and every intermediate stage output texture keeps the
configured output dimensions (given they had them before, as they do from the
first allocation on), regardless of the camera resolution. -/
theorem ensure_twice (q : PipelineState) (a b c d : Nat)
    (hq : ∀ x ∈ q.output_textures, x = (q.output_width, q.output_height)) :
    (WgpuPipeline.ensure_resources
        { WgpuPipeline.ensure_resources q a b c d with cached_width := 0 }
        a b c d).output_width = q.output_width
  ∧ (WgpuPipeline.ensure_resources
        { WgpuPipeline.ensure_resources q a b c d with cached_width := 0 }
        a b c d).output_height = q.output_height
  ∧ ∀ x ∈ (WgpuPipeline.ensure_resources
        { WgpuPipeline.ensure_resources q a b c d with cached_width := 0 }
        a b c d).output_textures, x = (q.output_width, q.output_height) := by
  have l1 := ensure_resources_output_size q a b c d
  have l2 := ensure_resources_inv q a b c d hq
  set p1' : PipelineState :=
    { WgpuPipeline.ensure_resources q a b c d with cached_width := 0 } with hp1
  have e1 : p1'.output_width = q.output_width := l1.1
  have e2 : p1'.output_height = q.output_height := l1.2
  have e3 : ∀ x ∈ p1'.output_textures, x = (p1'.output_width, p1'.output_height) := by
    intro x hx
    rw [e1, e2]
    exact l2 x hx
  have l3 := ensure_resources_output_size p1' a b c d
  have l4 := ensure_resources_inv p1' a b c d e3
  refine ⟨l3.1.trans e1, l3.2.trans e2, fun x hx => ?_⟩
  rw [l4 x hx, e1, e2]

/-- Claim C2: for every camera input frame of any size and supported format,
`process_frame` returns a frame whose width and height are the configured output
width and height, and every intermediate stage output texture keeps the
configured output dimensions (given they had them before, as they do from the
first allocation on), regardless of the camera resolution. -/
theorem spec_c2 (ezk : EzkConvert) (p : PipelineState) (input : VideoFrame)
    (mask_result : Option (Nat × Nat)) (video_resize : Bool) (gpu_output : List UInt8)
    (hinv : ∀ x ∈ p.output_textures, x = (p.output_width, p.output_height)) :
    ((WgpuPipeline.process_frame ezk p input mask_result video_resize gpu_output).2.width
        = p.output_width
     ∧ (WgpuPipeline.process_frame ezk p input mask_result video_resize gpu_output).2.height
        = p.output_height)
  ∧ ∀ x ∈ (WgpuPipeline.process_frame ezk p input mask_result video_resize
        gpu_output).1.output_textures, x = (p.output_width, p.output_height) := by
  simp only [WgpuPipeline.process_frame]
  cases video_resize with
  | false =>
      simp only [Bool.false_eq_true, if_false]
      exact ⟨⟨(ensure_resources_output_size p _ _ _ _).1,
             (ensure_resources_output_size p _ _ _ _).2⟩,
             ensure_resources_inv p _ _ _ _ hinv⟩
  | true =>
      simp only [if_true]
      exact ⟨⟨(ensure_twice p _ _ _ _ hinv).1, (ensure_twice p _ _ _ _ hinv).2.1⟩,
             (ensure_twice p _ _ _ _ hinv).2.2⟩

/-- Concrete instance of `spec_c2`: a 2x2 camera frame through a pipeline
configured for 8x4 output with one stage and a fresh cache. -/
theorem spec_c2_witness :
    ((WgpuPipeline.process_frame (fun _ _ _ _ _ => [])
        ⟨8, 4, 1, (1, 1), none, [], none, 0, 0, 0, 0⟩
        (VideoFrame.new 2 2 .Rgba) none false []).2.width = 8
     ∧ (WgpuPipeline.process_frame (fun _ _ _ _ _ => [])
        ⟨8, 4, 1, (1, 1), none, [], none, 0, 0, 0, 0⟩
        (VideoFrame.new 2 2 .Rgba) none false []).2.height = 4) :=
  (spec_c2 (fun _ _ _ _ _ => []) ⟨8, 4, 1, (1, 1), none, [], none, 0, 0, 0, 0⟩
    (VideoFrame.new 2 2 .Rgba) none false [] (by simp)).1

/-! ## Claim C4 -/

/-- Claim C4 as stated is false: the camera-frame upload and the readback copy
supply `width * 4` directly; at input width 1366 (a real 1366x768 camera mode)
that is 5464, not a multiple of the 256-byte row alignment. Only the mask upload
pads. -/
theorem spec_c4_counterexample :
    camera_upload_bytes_per_row 1366 = 5464
  ∧ ¬ bytes_per_row_alignment ∣ camera_upload_bytes_per_row 1366
  ∧ ¬ bytes_per_row_alignment ∣ readback_bytes_per_row 1366 := by
  refine ⟨rfl, ?_, ?_⟩ <;> decide

/-- Claim C4, amended: only the mask upload aligns its rows — its bytes-per-row
is the width rounded up to the next multiple of 256 (so it is always 256-aligned
and pads by less than a full alignment block). The camera upload, the video-slot
uploads and the output readback copy supply exactly `4·width`, which is a
multiple of 256 exactly when the width is a multiple of 64. -/
theorem spec_c4_amended :
    (∀ w, bytes_per_row_alignment ∣ mask_upload_bytes_per_row w)
  ∧ (∀ w, w ≤ mask_upload_bytes_per_row w ∧ mask_upload_bytes_per_row w < w + 256)
  ∧ (∀ w, camera_upload_bytes_per_row w = 4 * w ∧ video_upload_bytes_per_row w = 4 * w
      ∧ readback_bytes_per_row w = 4 * w)
  ∧ (∀ w, bytes_per_row_alignment ∣ camera_upload_bytes_per_row w ↔ 64 ∣ w)
  ∧ (∀ w, bytes_per_row_alignment ∣ readback_bytes_per_row w ↔ 64 ∣ w) := by
  refine ⟨fun w => ?_, fun w => ?_, fun w => ?_, fun w => ?_, fun w => ?_⟩
  · exact ⟨(w + 255) / 256, Nat.mul_comm _ _⟩
  · unfold mask_upload_bytes_per_row mask_padded_width
    omega
  · unfold camera_upload_bytes_per_row video_upload_bytes_per_row readback_bytes_per_row
    omega
  · unfold bytes_per_row_alignment camera_upload_bytes_per_row
    omega
  · unfold bytes_per_row_alignment readback_bytes_per_row
    omega

/-! ## Claim C7 -/

/-- Claim C7: the pipeline constructs a segmentation worker exactly when at least
one loaded shader's reflected bindings contain the mask binding (group 0,
binding 3); in particular, with no shaders (or none using the mask) no worker is
spawned. -/
theorem spec_c7 (shaders : List ShaderSource) :
    (segmentation_worker_spawned shaders = true ↔ ∃ s ∈ shaders, shader_uses_mask s = true)
  ∧ segmentation_worker_spawned [] = false := by
  refine ⟨?_, rfl⟩
  unfold segmentation_worker_spawned needs_segmentation
  cases shaders with
  | nil => simp
  | cons a t => simp [List.any_eq_true]

/-! ## Claim C8 -/

/-- Claim C8 as stated is false: the code matches the stripped host for exact
equality, not for the suffix. The host `m.youtube.com` ends in `youtube.com`,
yet `detect_streaming_platform` reports no platform and the URL is passed
through unchanged instead of being resolved through `yt-dlp`. -/
theorem spec_c8_counterexample :
    url_host ("https://m.youtube.com/watch?v=abc") = some ("m.youtube.com")
  ∧ "youtube.com".data <:+ "m.youtube.com".data
  ∧ detect_streaming_platform ("https://m.youtube.com/watch?v=abc") = none
  ∧ resolver_invocation ("https://m.youtube.com/watch?v=abc") = none := by
  refine ⟨by decide, ⟨"m.".data, by decide⟩, by decide, by decide⟩

/-- Claim C8, amended: a URL is resolved only when its host is exactly
`youtube.com`, `youtu.be` or `twitch.tv` after stripping a literal `www.`:
such YouTube hosts invoke `yt-dlp` (preferring AVC streams of height ≤ 1080),
such Twitch hosts invoke `streamlink` with quality `best`, and every other
input — including hosts like `m.youtube.com` that merely end in those
domains, and plain file paths — is passed through unchanged to the decoder. -/
theorem spec_c8_amended (yt tw : String → String) (input : String) :
    (∀ host, url_host input = some host →
      ((domain_of_host host = "youtube.com" ∨ domain_of_host host = "youtu.be") →
         resolver_invocation input = some ("yt-dlp", yt_dlp_args input)
         ∧ resolved_path yt tw input = yt input)
      ∧ (domain_of_host host = "twitch.tv" →
         resolver_invocation input = some ("streamlink", streamlink_args input)
         ∧ resolved_path yt tw input = tw input)
      ∧ (domain_of_host host ≠ "youtube.com" → domain_of_host host ≠ "youtu.be" →
         domain_of_host host ≠ "twitch.tv" →
         resolver_invocation input = none ∧ resolved_path yt tw input = input))
  ∧ (url_host input = none →
      resolver_invocation input = none ∧ resolved_path yt tw input = input) := by
  constructor
  · intro host hh
    unfold resolver_invocation resolved_path detect_streaming_platform
    rw [hh]
    refine ⟨fun hyt => ?_, fun htw => ?_, fun h1 h2 h3 => ?_⟩
    · simp only [if_pos hyt]
      exact ⟨trivial, trivial⟩
    · have hne : ¬ (domain_of_host host = "youtube.com" ∨ domain_of_host host = "youtu.be") := by
        rw [htw]
        decide
      simp only [if_neg hne, if_pos htw]
      exact ⟨trivial, trivial⟩
    · have hne : ¬ (domain_of_host host = "youtube.com" ∨ domain_of_host host = "youtu.be") :=
        fun h => h.elim h1 h2
      simp only [if_neg hne, if_neg h3]
      exact ⟨trivial, trivial⟩
  · intro hn
    unfold resolver_invocation resolved_path detect_streaming_platform
    rw [hn]
    exact ⟨rfl, rfl⟩

/-- Concrete instance of `spec_c8_amended`: `www.youtube.com` is resolved via
`yt-dlp` with the AVC-≤1080-preferring format selection. -/
theorem spec_c8_amended_witness :
    resolver_invocation ("https://www.youtube.com/watch?v=x")
      = some ("yt-dlp", yt_dlp_args ("https://www.youtube.com/watch?v=x")) :=
  (((spec_c8_amended (fun s => s) (fun s => s) ("https://www.youtube.com/watch?v=x")).1
      ("www.youtube.com") (by decide)).1 (Or.inl (by decide))).1

end Proteus
